import Mathlib

/-!
# Verification of the Convex-integration core of google-calendar-mcp

This file gives a shallow embedding, in Lean 4, of the multi-tenant token
store (`src/auth/convexTokenProvider.ts`), the Convex configuration
(`src/config/ConvexConfig.ts`), the security middleware
(`src/middleware/auth.ts`), the management/token HTTP endpoints
(`src/api/managementEndpoints.ts`, `src/api/tokenEndpoints.ts`) and the
HTTP request dispatch (`src/transports/http.ts`), together with theorems
settling the specification claims about them.

Modelling conventions:
* Epoch-millisecond timestamps and JS numbers that can go negative are `Int`.
* JS strings compared by identity are Lean `String`; strings processed
  character-by-character (API keys via `charCodeAt`) are `List Nat` of
  UTF-16 code units.
* The mutable `Map` stores are association lists threaded explicitly;
  a thrown exception together with the store left behind is a pair
  `Except String Unit × Store`.
* `parseInt(s, 10)` is modelled by `jsParseInt`, returning `none` for `NaN`.
-/

/-- `UserTokens` from convexTokenProvider.ts: the five credential fields.
`expiresAt` is a JS number (epoch ms); it is modelled as `Int` so that the
behaviour on zero and negative values can be examined. -/
structure UserTokens where
  accessToken : String
  refreshToken : String
  expiresAt : Int
  scope : String
  tokenType : String
deriving Repr, DecidableEq

/-- `TokenEntry` from convexTokenProvider.ts: stored tokens plus metadata. -/
structure TokenEntry where
  tokens : UserTokens
  lastUpdated : Int
  lastAccessed : Int
deriving Repr, DecidableEq

/-- The `Map<string, TokenEntry>` of `ConvexTokenProvider`, as an association
list in insertion order (matching JS `Map` iteration order). -/
abbrev TokenStore := List (String × TokenEntry)

/-- `Map.get`: first entry with the given key. -/
def storeGet (s : TokenStore) (k : String) : Option TokenEntry :=
  match s with
  | [] => none
  | (k', e) :: rest => if k' = k then some e else storeGet rest k

/-- `Map.set`: replace the entry with the given key, or append a new one. -/
def storeSet (s : TokenStore) (k : String) (e : TokenEntry) : TokenStore :=
  match s with
  | [] => [(k, e)]
  | (k', e') :: rest => if k' = k then (k, e) :: rest else (k', e') :: storeSet rest k e

/-- `Map.delete`: remove the entry with the given key, if any. -/
def storeRemove (s : TokenStore) (k : String) : TokenStore :=
  match s with
  | [] => []
  | (k', e') :: rest => if k' = k then rest else (k', e') :: storeRemove rest k

/-- `ConvexTokenProvider.validateTokens` (convexTokenProvider.ts lines
211-231).  Each check is JS truthiness followed by a `typeof` test: for the
string fields only the empty string is falsy, and for the numeric
`expiresAt` only `0` (and `NaN`) is falsy; the `typeof` tests always pass
on correctly-typed input.  Note the code does not require `expiresAt` to be
positive. -/
def validateTokens (tokens : UserTokens) : Except String Unit :=
  if tokens.accessToken = "" then
    Except.error "Invalid accessToken: must be a non-empty string"
  else if tokens.refreshToken = "" then
    Except.error "Invalid refreshToken: must be a non-empty string"
  else if tokens.expiresAt = 0 then
    Except.error "Invalid expiresAt: must be a number"
  else if tokens.scope = "" then
    Except.error "Invalid scope: must be a string"
  else if tokens.tokenType = "" then
    Except.error "Invalid tokenType: must be a string"
  else
    Except.ok ()

/-- `ConvexTokenProvider.setUserTokens` (lines 61-74).  The result pairs the
outcome (an `Except.error` models the thrown `Error`) with the token store
as it is left by the call: the throws happen before any mutation, so the
error cases leave the store unchanged. -/
def setUserTokens (userId : String) (tokens : UserTokens) (now : Int)
    (store : TokenStore) : Except String Unit × TokenStore :=
  if userId = "" then
    (Except.error "Invalid userId: must be a non-empty string", store)
  else
    match validateTokens tokens with
    | Except.error e => (Except.error e, store)
    | Except.ok _ =>
      (Except.ok (), storeSet store userId
        { tokens := tokens, lastUpdated := now, lastAccessed := now })

/-- `ConvexTokenProvider.getUserTokens` (lines 79-93).  On a hit the entry's
`lastAccessed` field is mutated to `now` before the tokens are returned. -/
def getUserTokens (userId : String) (now : Int) (s : TokenStore) :
    Option UserTokens × TokenStore :=
  if userId = "" then (none, s)
  else
    match storeGet s userId with
    | none => (none, s)
    | some entry =>
      (some entry.tokens, storeSet s userId { entry with lastAccessed := now })

/-- The 5-minute buffer of `isTokenExpired`. -/
def tokenExpiryBufferMs : Int := 5 * 60 * 1000

/-- `ConvexTokenProvider.isTokenExpired` (lines 117-122):
expired when `expiresAt <= now + bufferMs`. -/
def isTokenExpired (now : Int) (tokens : UserTokens) : Bool :=
  tokens.expiresAt ≤ now + tokenExpiryBufferMs

/-- `STALE_TOKEN_THRESHOLD_MS` (24 hours). -/
def STALE_TOKEN_THRESHOLD_MS : Int := 24 * 60 * 60 * 1000

/-- `ConvexTokenProvider.cleanupStaleTokens` (lines 264-281): delete every
entry whose `lastAccessed` is strictly below `now - STALE_TOKEN_THRESHOLD_MS`. -/
def cleanupStaleTokens (now : Int) (s : TokenStore) : TokenStore :=
  s.filter (fun p => !(p.2.lastAccessed < now - STALE_TOKEN_THRESHOLD_MS))

/-- `TokenStats` from convexTokenProvider.ts. -/
structure TokenStats where
  totalUsers : Nat
  activeUsers : Nat
  expiredTokens : Nat
  oldestToken : Option Int
  newestToken : Option Int
deriving Repr, DecidableEq

/-- One iteration of the `getStats` loop (lines 150-168), accumulating
(expired count, active count, oldest, newest). -/
def statsStep (now : Int) (acc : Nat × Nat × Option Int × Option Int)
    (p : String × TokenEntry) : Nat × Nat × Option Int × Option Int :=
  let expired := if isTokenExpired now p.2.tokens then acc.1 + 1 else acc.1
  let active := if now - 60 * 60 * 1000 ≤ p.2.lastAccessed then acc.2.1 + 1 else acc.2.1
  let oldest := match acc.2.2.1 with
    | none => some p.2.lastUpdated
    | some o => if p.2.lastUpdated < o then some p.2.lastUpdated else some o
  let newest := match acc.2.2.2 with
    | none => some p.2.lastUpdated
    | some n => if n < p.2.lastUpdated then some p.2.lastUpdated else some n
  (expired, active, oldest, newest)

/-- `ConvexTokenProvider.getStats` (lines 141-177).  A pure read: the store
is not modified anywhere in the source loop. -/
def getStats (now : Int) (s : TokenStore) : TokenStats :=
  let acc := s.foldl (statsStep now) (0, 0, none, none)
  { totalUsers := s.length
    activeUsers := acc.2.1
    expiredTokens := acc.1
    oldestToken := acc.2.2.1
    newestToken := acc.2.2.2 }

/-- Accumulator of the constant-time comparison loop in
`ConvexConfig.validateApiKey` (TransportConfig.ts lines 300-303):
`result |= provided.charCodeAt(i) ^ key.charCodeAt(i)` over all positions.
Keys are lists of UTF-16 code units. -/
def xorAccum : List Nat → List Nat → Nat
  | [], _ => 0
  | _, [] => 0
  | x :: xs, y :: ys => (x ^^^ y) ||| xorAccum xs ys

/-- `ConvexConfig.validateApiKey` (TransportConfig.ts lines 290-306):
always true when Convex mode is disabled; otherwise a length check followed
by the XOR-accumulating loop. -/
def validateApiKey (enabled : Bool) (apiKey providedKey : List Nat) : Bool :=
  if !enabled then true
  else if providedKey.length ≠ apiKey.length then false
  else xorAccum providedKey apiKey == 0

/-- `ConvexConfig.isOriginAllowed` (TransportConfig.ts lines 311-328). -/
def isOriginAllowed (enabled : Bool) (allowedOrigins : List String)
    (origin : String) : Bool :=
  if !enabled then true
  else if allowedOrigins.isEmpty then false
  else if allowedOrigins.contains "*" then true
  else allowedOrigins.contains origin

/-- The terminal or pass-through outcome of `corsMiddleware`. -/
inductive CorsResult where
  | forbidden
  | preflight
  | proceed
deriving Repr, DecidableEq

/-- Convex configuration values relevant to the modelled paths
(ConvexConfigOptions from TransportConfig.ts). -/
structure ConvexCfg where
  enabled : Bool
  apiKey : List Nat
  allowedOrigins : List String
  maxRequestsPerUser : Nat
  maxTokenInjectionsPerIp : Nat
  windowMs : Int
  minExpiryBufferMs : Int
  expiryWarningThresholdMs : Int
deriving Repr, DecidableEq

/-- An incoming HTTP request, reduced to the fields the modelled code
inspects.  `xApiKey` and `authorization` are the raw header values as
UTF-16 code-unit lists (`authorization` already stripped of a leading
Bearer marker, as both extraction sites do); `ip` is the client address
`getClientIp` resolves; `body` is the parsed JSON body of a token
injection request. -/
structure Request where
  method : String
  url : String
  origin : Option String
  xApiKey : Option (List Nat)
  authorization : Option (List Nat)
  contentLength : Option String
  ip : String
  bodyUserId : String
  bodyAccessToken : String
  bodyRefreshToken : String
  bodyExpiresAt : Int
  bodyScope : String
  bodyTokenType : String
deriving Repr, DecidableEq

/-- `corsMiddleware` (middleware/auth.ts lines 120-162) reduced to its
control-flow decision.  In non-Convex mode everything is allowed; in Convex
mode a request proceeds when its origin is allowed or a wildcard is
configured, an `OPTIONS` request is answered as a preflight, and everything
else is a 403. -/
def corsDecision (cfg : ConvexCfg) (req : Request) : CorsResult :=
  if !cfg.enabled then CorsResult.proceed
  else
    let allowedBranch :=
      (match req.origin with
       | some o => isOriginAllowed cfg.enabled cfg.allowedOrigins o
       | none => false) || cfg.allowedOrigins.contains "*"
    if allowedBranch then
      if req.method = "OPTIONS" then CorsResult.preflight else CorsResult.proceed
    else
      if req.method ≠ "OPTIONS" then CorsResult.forbidden
      else CorsResult.preflight

/-- A `RateLimitEntry` (middleware/auth.ts lines 22-25). -/
structure RateLimitEntry where
  count : Nat
  resetTime : Int
deriving Repr, DecidableEq

/-- Result of one rate-limit check: the entry written back to the store,
whether the request was rejected, and the advertised `Retry-After`
seconds on rejection. -/
structure RateLimitResult where
  entry : RateLimitEntry
  rejected : Bool
  retryAfter : Option Int
deriving Repr, DecidableEq

/-- `Math.ceil(x / d)` for a JS integer division with positive divisor. -/
def jsMathCeilDiv (x d : Int) : Int := (x + d - 1) / d

/-- The shared body of `rateLimitTokenInjection` (middleware/auth.ts lines
195-245) and `rateLimitToolRequests` (lines 250-299), for one key: fetch
the counter, replace it with a fresh window when absent or when
`entry.resetTime < now` (strict), increment, reject when the count exceeds
the limit, reporting `Math.ceil((resetTime - now) / 1000)` seconds. -/
def rateLimitCheck (now windowMs : Int) (limit : Nat)
    (stored : Option RateLimitEntry) : RateLimitResult :=
  let e0 : RateLimitEntry :=
    match stored with
    | none => { count := 0, resetTime := now + windowMs }
    | some e =>
      if e.resetTime < now then { count := 0, resetTime := now + windowMs } else e
  let e1 : RateLimitEntry := { e0 with count := e0.count + 1 }
  if limit < e1.count then
    { entry := e1, rejected := true,
      retryAfter := some (jsMathCeilDiv (e1.resetTime - now) 1000) }
  else
    { entry := e1, rejected := false, retryAfter := none }

/-- JS `parseInt(s, 10)`: skip leading whitespace, optional sign, then the
longest digit run; `none` models `NaN` (no digits found). -/
def digitsVal : List Char → Nat → Nat
  | [], acc => acc
  | c :: rest, acc =>
    if c.isDigit then digitsVal rest (acc * 10 + (c.toNat - 48)) else acc

/-- Whether the next character exists and is a digit. -/
def headIsDigit : List Char → Bool
  | [] => false
  | c :: _ => c.isDigit

/-- JS `parseInt(s, 10)` on a string, producing `none` for `NaN`. -/
def jsParseInt (s : String) : Option Int :=
  let cs := s.data.dropWhile (fun c => c = ' ' ∨ c = '\t' ∨ c = '\n' ∨ c = '\r')
  match cs with
  | '-' :: rest =>
    if headIsDigit rest then some (-(digitsVal rest 0 : Int)) else none
  | '+' :: rest =>
    if headIsDigit rest then some ((digitsVal rest 0 : Int)) else none
  | _ =>
    if headIsDigit cs then some ((digitsVal cs 0 : Int)) else none

/-- `req.headers['content-length'] || '0'`: a missing or empty header
falls back to the string `"0"`. -/
def contentLengthOrZero (hdr : Option String) : String :=
  match hdr with
  | none => "0"
  | some h => if h = "" then "0" else h

/-- The payload-size test shared by `requestSizeLimit` (middleware/auth.ts
lines 304-319) and the inline check in `HttpTransportHandler.connect`
(transports/http.ts lines 62-72): `parseInt(header || '0', 10) > maxSize`.
A `NaN` comparison is false in JS, so an unparseable header passes. -/
def sizeLimitRejects (maxSize : Int) (hdr : Option String) : Bool :=
  match jsParseInt (contentLengthOrZero hdr) with
  | none => false
  | some n => maxSize < n

/-- The 10MB `maxRequestSize` from transports/http.ts line 64. -/
def maxRequestSize : Int := 10 * 1024 * 1024

/-- The mutable server-wide state threaded through request handling: the
per-IP rate-limit store (`rateLimitStores.byIp`) and the token store. -/
structure ServerState where
  byIp : List (String × RateLimitEntry)
  tokenStore : TokenStore
deriving Repr, DecidableEq

/-- Lookup in the per-IP rate-limit map. -/
def rlGet (s : List (String × RateLimitEntry)) (k : String) : Option RateLimitEntry :=
  match s with
  | [] => none
  | (k', e) :: rest => if k' = k then some e else rlGet rest k

/-- `Map.set` for the per-IP rate-limit map. -/
def rlSet (s : List (String × RateLimitEntry)) (k : String) (e : RateLimitEntry) :
    List (String × RateLimitEntry) :=
  match s with
  | [] => [(k, e)]
  | (k', e') :: rest => if k' = k then (k, e) :: rest else (k', e') :: rlSet rest k e

/-- The zod `InjectTokensSchema` (tokenEndpoints.ts lines 257-264) applied
to a request body, producing the list of error messages exactly when a
field fails (strings must be non-empty, `expiresAt` a positive integer). -/
def injectSchemaErrors (req : Request) : List String :=
  (if req.bodyUserId = "" then ["userId: userId is required"] else []) ++
  (if req.bodyAccessToken = "" then ["accessToken: accessToken is required"] else []) ++
  (if req.bodyRefreshToken = "" then ["refreshToken: refreshToken is required"] else []) ++
  (if req.bodyExpiresAt ≤ 0 then ["expiresAt: expiresAt must be a positive integer"] else []) ++
  (if req.bodyScope = "" then ["scope: scope is required"] else []) ++
  (if req.bodyTokenType = "" then ["tokenType: tokenType is required"] else [])

/-- The `UserTokens` record built from a validated injection body
(tokenEndpoints.ts lines 355-361). -/
def tokensOfBody (req : Request) : UserTokens :=
  { accessToken := req.bodyAccessToken
    refreshToken := req.bodyRefreshToken
    expiresAt := req.bodyExpiresAt
    scope := req.bodyScope
    tokenType := req.bodyTokenType }

/-- Response of `handleInjectTokens`; `success` carries the optional
expiry warning (minutes remaining). -/
inductive InjectResult where
  | validationError (msg : String)
  | invalidToken (msg : String)
  | expiringSoon (minutesRemaining : Int)
  | success (warningMinutes : Option Int)
  | serverError (msg : String)
deriving Repr, DecidableEq

/-- `handleInjectTokens` (tokenEndpoints.ts lines 298-384): schema
validation, the already-expired rejection, the expiring-too-soon rejection,
the warning threshold, then `setUserTokens`.  Every rejection happens
before the store write, so those branches return the store unchanged. -/
def handleInjectTokens (minExpiryBufferMs expiryWarningThresholdMs : Int)
    (req : Request) (now : Int) (s : TokenStore) : InjectResult × TokenStore :=
  let errs := injectSchemaErrors req
  if errs ≠ [] then
    (InjectResult.validationError (String.intercalate ", " errs), s)
  else
    let timeUntilExpiry := req.bodyExpiresAt - now
    if timeUntilExpiry ≤ 0 then
      (InjectResult.invalidToken
        "Token has already expired. Please refresh the token before injecting.", s)
    else if timeUntilExpiry < minExpiryBufferMs then
      (InjectResult.expiringSoon (jsMathCeilDiv timeUntilExpiry 60000), s)
    else
      let warning :=
        if timeUntilExpiry < expiryWarningThresholdMs then
          some (jsMathCeilDiv timeUntilExpiry 60000)
        else none
      match setUserTokens req.bodyUserId (tokensOfBody req) now s with
      | (Except.ok _, s1) => (InjectResult.success warning, s1)
      | (Except.error msg, s1) => (InjectResult.serverError msg, s1)

/-- Response of `handleTokenStatus`. -/
inductive TokenStatusResp where
  | noTokens
  | status (valid : Bool) (expiresAt expiresIn : Int) (expired : Bool) (scope : String)
deriving Repr, DecidableEq

/-- Whether a status response reports the credential as valid. -/
def TokenStatusResp.isValid : TokenStatusResp → Bool
  | TokenStatusResp.noTokens => false
  | TokenStatusResp.status v _ _ _ _ => v

/-- `handleTokenStatus` (tokenEndpoints.ts lines 389-427): reads via
`getUserTokens` (which refreshes `lastAccessed`) and reports validity as
the negation of `isTokenExpired`. -/
def handleTokenStatus (userId : String) (now : Int) (s : TokenStore) :
    TokenStatusResp × TokenStore :=
  match getUserTokens userId now s with
  | (none, s1) => (TokenStatusResp.noTokens, s1)
  | (some tokens, s1) =>
    let expired := isTokenExpired now tokens
    let expiresIn := tokens.expiresAt - now
    (TokenStatusResp.status (!expired) tokens.expiresAt
      (if 0 < expiresIn then expiresIn else 0) expired tokens.scope, s1)

/-- `handleDeleteTokens` (tokenEndpoints.ts lines 432-458): the existence
probe goes through `getUserTokens` (bumping `lastAccessed`) before the
removal. -/
def handleDeleteTokens (userId : String) (now : Int) (s : TokenStore) :
    Bool × TokenStore :=
  let probe := getUserTokens userId now s
  (probe.1.isSome, storeRemove probe.2 userId)

/-- One row of the `/api/users/active` response (managementEndpoints.ts
lines 109-124). -/
structure ActiveUserInfo where
  userId : String
  valid : Bool
  expiresIn : Int
  scope : String
deriving Repr, DecidableEq

/-- The `userIds.map(...)` loop of `handleActiveUsers`: each iteration
reads via `getUserTokens`, mutating that entry's `lastAccessed`; missing
users are filtered out. -/
def activeUsersLoop (now : Int) : List String → TokenStore →
    List ActiveUserInfo × TokenStore
  | [], s => ([], s)
  | uid :: rest, s =>
    match getUserTokens uid now s with
    | (none, s1) => activeUsersLoop now rest s1
    | (some tokens, s1) =>
      let r := activeUsersLoop now rest s1
      let expiresIn := tokens.expiresAt - now
      ({ userId := uid, valid := !isTokenExpired now tokens,
         expiresIn := if 0 < expiresIn then expiresIn else 0,
         scope := tokens.scope } :: r.1, r.2)

/-- `handleActiveUsers` (managementEndpoints.ts lines 101-133): stats are
computed first, then the per-user loop runs over the key list, threading
its `getUserTokens` side effects through the store. -/
def handleActiveUsers (now : Int) (s : TokenStore) :
    (TokenStats × List ActiveUserInfo) × TokenStore :=
  let stats := getStats now s
  let r := activeUsersLoop now (s.map Prod.fst) s
  ((stats, r.1), r.2)

/-- `handleHealthCheck` (managementEndpoints.ts lines 22-45): reads
`getStats` only; the token store is not written. -/
def handleHealthCheck (now : Int) (s : TokenStore) : TokenStats × TokenStore :=
  (getStats now s, s)

/-- `handleMetrics` (managementEndpoints.ts lines 50-96): likewise a pure
read of `getStats` (plus process/config data outside the store). -/
def handleMetrics (now : Int) (s : TokenStore) : TokenStats × TokenStore :=
  (getStats now s, s)

/-- Whether the first character list leads the second (string starts-with,
written on character lists so that it evaluates in the kernel). -/
def charsLeadWith : List Char → List Char → Bool
  | [], _ => true
  | _ :: _, [] => false
  | a :: restA, b :: restB => a = b && charsLeadWith restA restB

/-- `path.startsWith(p)` on the character-list representation. -/
def strStartsWith (s p : String) : Bool :=
  charsLeadWith p.data s.data

/-- `parseUrl`: `url.split('?')[0]` — everything before the first `?`. -/
def urlPath (url : String) : String :=
  String.mk (url.data.takeWhile (fun c => c ≠ '?'))

/-- `extractUserId` (tokenEndpoints.ts lines 286-293):
`path.slice(p.length).split('/')[0] || null`. -/
def extractUserId (path pre : String) : Option String :=
  if strStartsWith path pre then
    let uid := (path.data.drop pre.data.length).takeWhile (fun c => c ≠ '/')
    if uid = [] then none else some (String.mk uid)
  else none

/-- The API-key extraction of `apiKeyAuth` (middleware/auth.ts lines
177-180): `x-api-key || authorization-bearer || ''`, where JS `||` skips
empty strings and missing headers. -/
def extractAuthKey (req : Request) : List Nat :=
  match req.xApiKey with
  | some k => if k = [] then (req.authorization.getD []) else k
  | none => req.authorization.getD []

/-- The key extraction of the `/api/users/active` admin branch
(managementEndpoints.ts lines 215-216), which has no final fallback:
the result is `undefined` (here `none`) when the `x-api-key` header is
falsy and no authorization header is present. -/
def extractAdminKey (req : Request) : Option (List Nat) :=
  match req.xApiKey with
  | some k => if k = [] then req.authorization else some k
  | none => req.authorization

/-- Terminal outcomes of a request through the modelled server
(transports/http.ts request callback and everything it dispatches to). -/
inductive Outcome where
  | originForbidden
  | preflightOk
  | payloadTooLarge
  | mgmtHealth (stats : TokenStats)
  | mgmtMetrics (stats : TokenStats)
  | mgmtVersion
  | mgmtConfig
  | mgmtActiveUsers (stats : TokenStats) (users : List ActiveUserInfo)
  | adminUnauthorized
  | adminKeyTypeError
  | tokenUnauthorized
  | tokenRateLimited (retryAfter : Int)
  | tokenInject (r : InjectResult)
  | tokenStatus (r : TokenStatusResp)
  | tokenDelete (hadTokens : Bool)
  | tokenNotFound
  | mcpFallthrough
deriving Repr, DecidableEq

/-- `handleManagementEndpoints` (managementEndpoints.ts lines 181-234):
GET-only routing over the fixed paths; `none` means not handled.  The
`/api/users/active` branch re-checks the API key itself; calling
`validateApiKey` on a missing key throws a TypeError in the source
(`providedKey.length` on `undefined`), modelled as `adminKeyTypeError`. -/
def handleManagementEndpoints (cfg : ConvexCfg) (req : Request) (now : Int)
    (st : ServerState) : Option (Outcome × ServerState) :=
  if req.method ≠ "GET" then none
  else
    let path := urlPath req.url
    if path = "/health" then
      some (Outcome.mgmtHealth (getStats now st.tokenStore), st)
    else if path = "/metrics" then
      some (Outcome.mgmtMetrics (getStats now st.tokenStore), st)
    else if path = "/version" then
      some (Outcome.mgmtVersion, st)
    else if path = "/api/config" then
      some (Outcome.mgmtConfig, st)
    else if path = "/api/users/active" then
      let proceed :=
        if cfg.enabled then
          match extractAdminKey req with
          | none => Except.error Outcome.adminKeyTypeError
          | some k =>
            if !validateApiKey cfg.enabled cfg.apiKey k then
              Except.error Outcome.adminUnauthorized
            else Except.ok ()
        else Except.ok ()
      match proceed with
      | Except.error out => some (out, st)
      | Except.ok _ =>
        let r := handleActiveUsers now st.tokenStore
        some (Outcome.mgmtActiveUsers r.1.1 r.1.2, { st with tokenStore := r.2 })
    else none

/-- `handleTokenEndpoints` (tokenEndpoints.ts lines 463-521): paths under
`/api/tokens` run `composeMiddleware(apiKeyAuth(), rateLimitTokenInjection())`
and then the method/path routing; `none` means not handled.  `apiKeyAuth`
stops the chain without calling `next` on a bad key, so the rate-limit
store is untouched in that case; the rate limiter increments its counter
even on requests it allows. -/
def handleTokenEndpoints (cfg : ConvexCfg) (req : Request) (now : Int)
    (st : ServerState) : Option (Outcome × ServerState) :=
  let path := urlPath req.url
  if !strStartsWith path "/api/tokens" then none
  else
    -- apiKeyAuth middleware
    if cfg.enabled && !validateApiKey cfg.enabled cfg.apiKey (extractAuthKey req) then
      some (Outcome.tokenUnauthorized, st)
    else
      -- rateLimitTokenInjection middleware
      let afterRl : ServerState × Option Int :=
        if cfg.enabled then
          let r := rateLimitCheck now cfg.windowMs cfg.maxTokenInjectionsPerIp
            (rlGet st.byIp req.ip)
          ({ st with byIp := rlSet st.byIp req.ip r.entry },
           if r.rejected then some (r.retryAfter.getD 0) else none)
        else (st, none)
      let st1 := afterRl.1
      match afterRl.2 with
      | some retry => some (Outcome.tokenRateLimited retry, st1)
      | none =>
        -- inner routing
        if req.method = "POST" && path = "/api/tokens" then
          let r := handleInjectTokens cfg.minExpiryBufferMs
            cfg.expiryWarningThresholdMs req now st1.tokenStore
          some (Outcome.tokenInject r.1, { st1 with tokenStore := r.2 })
        else if req.method = "GET" && strStartsWith path "/api/tokens/" then
          match extractUserId path "/api/tokens/" with
          | some uid =>
            if path = "/api/tokens/" ++ uid ++ "/status" then
              let r := handleTokenStatus uid now st1.tokenStore
              some (Outcome.tokenStatus r.1, { st1 with tokenStore := r.2 })
            else some (Outcome.tokenNotFound, st1)
          | none => some (Outcome.tokenNotFound, st1)
        else if req.method = "DELETE" && strStartsWith path "/api/tokens/" then
          match extractUserId path "/api/tokens/" with
          | some uid =>
            let r := handleDeleteTokens uid now st1.tokenStore
            some (Outcome.tokenDelete r.1, { st1 with tokenStore := r.2 })
          | none => some (Outcome.tokenNotFound, st1)
        else some (Outcome.tokenNotFound, st1)

/-- The request callback of `HttpTransportHandler.connect`
(transports/http.ts lines 35-116): CORS and security headers, then the
inline payload-size check, then management endpoints, then token
endpoints, and finally the MCP transport (not modelled beyond the
fall-through). -/
def processRequest (cfg : ConvexCfg) (req : Request) (now : Int)
    (st : ServerState) : Outcome × ServerState :=
  match corsDecision cfg req with
  | CorsResult.forbidden => (Outcome.originForbidden, st)
  | CorsResult.preflight => (Outcome.preflightOk, st)
  | CorsResult.proceed =>
    -- securityHeaders always continues
    if sizeLimitRejects maxRequestSize req.contentLength then
      (Outcome.payloadTooLarge, st)
    else
      match handleManagementEndpoints cfg req now st with
      | some r => r
      | none =>
        match handleTokenEndpoints cfg req now st with
        | some r => r
        | none => (Outcome.mcpFallthrough, st)

/-- The field-validity predicate that `setUserTokens` actually enforces:
non-empty strings and a nonzero `expiresAt` (negative values pass). -/
def tokensValid (t : UserTokens) : Prop :=
  t.accessToken ≠ "" ∧ t.refreshToken ≠ "" ∧ t.expiresAt ≠ 0 ∧
  t.scope ≠ "" ∧ t.tokenType ≠ ""

/-- The rate-limit step as claim C4 (and spec section 4.2) words it, for
comparison with `rateLimitCheck`: the counter is replaced by a fresh
window when it is absent or when `now ≥ windowResetAt` (inclusive), so a
check arriving exactly at `windowResetAt` starts a fresh window. -/
def rateLimitCheckClaimed (now windowMs : Int) (limit : Nat)
    (stored : Option RateLimitEntry) : RateLimitResult :=
  let e0 : RateLimitEntry :=
    match stored with
    | none => { count := 0, resetTime := now + windowMs }
    | some e =>
      if e.resetTime ≤ now then { count := 0, resetTime := now + windowMs } else e
  let e1 : RateLimitEntry := { e0 with count := e0.count + 1 }
  if limit < e1.count then
    { entry := e1, rejected := true,
      retryAfter := some (jsMathCeilDiv (e1.resetTime - now) 1000) }
  else
    { entry := e1, rejected := false, retryAfter := none }

/-- C8: `isTokenExpired` returns true iff `expiresAt ≤ now + bufferMs`
with a 5-minute buffer, and in the boundary case
`expiresAt = now + bufferMs` it reports expired. -/
theorem C8_isExpired_boundary (now : Int) (t : UserTokens) :
    (isTokenExpired now t = true ↔ t.expiresAt ≤ now + 5 * 60 * 1000) ∧
    isTokenExpired now { t with expiresAt := now + 5 * 60 * 1000 } = true := by
  constructor
  · simp [isTokenExpired, tokenExpiryBufferMs]
  · simp [isTokenExpired, tokenExpiryBufferMs]

/-- C7: `cleanupStaleTokens` removes exactly the entries whose
`lastAccessed` is strictly below `now − staleThresholdMs` (24h) and keeps
every other entry with all its fields intact. -/
theorem C7_purge_stale_exact (now : Int) (s : TokenStore) :
    (∀ p ∈ s, p.2.lastAccessed < now - STALE_TOKEN_THRESHOLD_MS →
       p ∉ cleanupStaleTokens now s) ∧
    (∀ p ∈ s, now - STALE_TOKEN_THRESHOLD_MS ≤ p.2.lastAccessed →
       p ∈ cleanupStaleTokens now s) ∧
    (∀ p ∈ cleanupStaleTokens now s, p ∈ s) := by
  refine ⟨?_, ?_, ?_⟩
  · intro p hp hlt hmem
    rcases (List.mem_filter.mp hmem) with ⟨-, hcond⟩
    simp only [Bool.not_eq_true', decide_eq_false_iff_not, not_lt] at hcond
    omega
  · intro p hp hge
    refine List.mem_filter.mpr ⟨hp, ?_⟩
    simp only [Bool.not_eq_true', decide_eq_false_iff_not, not_lt]
    omega
  · intro p hp
    exact (List.mem_filter.mp hp).1

/-- Witness for C7: with the 24h threshold and `now` at the 100-hour mark,
an entry last accessed 25h ago (i.e. at 75h) is removed and one accessed
23h ago (at 77h) survives. -/
theorem C7_purge_stale_exact_witness :
    ("old", TokenEntry.mk (UserTokens.mk "a" "r" 999999999 "s" "B") 270000000 270000000) ∉
      cleanupStaleTokens 360000000
        [("old", TokenEntry.mk (UserTokens.mk "a" "r" 999999999 "s" "B") 270000000 270000000),
         ("new", TokenEntry.mk (UserTokens.mk "a" "r" 999999999 "s" "B") 277200000 277200000)] ∧
    ("new", TokenEntry.mk (UserTokens.mk "a" "r" 999999999 "s" "B") 277200000 277200000) ∈
      cleanupStaleTokens 360000000
        [("old", TokenEntry.mk (UserTokens.mk "a" "r" 999999999 "s" "B") 270000000 270000000),
         ("new", TokenEntry.mk (UserTokens.mk "a" "r" 999999999 "s" "B") 277200000 277200000)] := by
  constructor
  · exact (C7_purge_stale_exact 360000000 _).1 _ (by decide) (by decide)
  · exact (C7_purge_stale_exact 360000000 _).2.1 _ (by decide) (by decide)

/-- C1 counterexample: a credential whose `expiresAt` is the non-positive
number `-1` (so not a positive integer, which the claim says must be
rejected) passes `setUserTokens` validation: the put succeeds and mutates
the store. -/
theorem C1_counterexample :
    ((-1 : Int) ≤ 0) ∧
    setUserTokens "u1"
      (UserTokens.mk "a" "r" (-1) "s" "Bearer") 1000 [] =
      (Except.ok (),
       [("u1", TokenEntry.mk (UserTokens.mk "a" "r" (-1) "s" "Bearer") 1000 1000)]) := by
  exact ⟨by decide, rfl⟩

/-- C1 (amended): `setUserTokens` validates each field — the four string
fields must be non-empty and `expiresAt` must be a nonzero number (zero is
rejected by the JS truthiness check, but negative values pass) — and on
any failure it throws an error naming the offending field and leaves the
store completely unmutated; on success it stamps the entry wholesale. -/
theorem C1_put_validation (uid : String) (t : UserTokens) (now : Int)
    (s : TokenStore) (huid : uid ≠ "") :
    (tokensValid t →
      setUserTokens uid t now s =
        (Except.ok (),
         storeSet s uid { tokens := t, lastUpdated := now, lastAccessed := now })) ∧
    (¬ tokensValid t →
      ∃ msg, setUserTokens uid t now s = (Except.error msg, s) ∧
        ((t.accessToken = "" ∧ msg = "Invalid accessToken: must be a non-empty string") ∨
         (t.refreshToken = "" ∧ msg = "Invalid refreshToken: must be a non-empty string") ∨
         (t.expiresAt = 0 ∧ msg = "Invalid expiresAt: must be a number") ∨
         (t.scope = "" ∧ msg = "Invalid scope: must be a string") ∨
         (t.tokenType = "" ∧ msg = "Invalid tokenType: must be a string"))) := by
  unfold setUserTokens validateTokens tokensValid
  by_cases h1 : t.accessToken = "" <;> by_cases h2 : t.refreshToken = "" <;>
    by_cases h3 : t.expiresAt = 0 <;> by_cases h4 : t.scope = "" <;>
    by_cases h5 : t.tokenType = "" <;>
    simp [huid, h1, h2, h3, h4, h5]

/-- Witness for C1 (amended): a fully valid credential is stored, and a
credential with an empty access token is rejected with the store left
empty. -/
theorem C1_put_validation_witness :
    setUserTokens "u1" (UserTokens.mk "a" "r" 99 "s" "B") 5 [] =
      (Except.ok (),
       [("u1", TokenEntry.mk (UserTokens.mk "a" "r" 99 "s" "B") 5 5)]) ∧
    (∃ msg, setUserTokens "u1" (UserTokens.mk "" "r" 99 "s" "B") 5 [] =
      (Except.error msg, []) ∧
      ((("" : String) = "" ∧ msg = "Invalid accessToken: must be a non-empty string") ∨
       (("r" : String) = "" ∧ msg = "Invalid refreshToken: must be a non-empty string") ∨
       ((99 : Int) = 0 ∧ msg = "Invalid expiresAt: must be a number") ∨
       (("s" : String) = "" ∧ msg = "Invalid scope: must be a string") ∨
       (("B" : String) = "" ∧ msg = "Invalid tokenType: must be a string"))) := by
  constructor
  · exact (C1_put_validation "u1" (UserTokens.mk "a" "r" 99 "s" "B") 5 []
      (by decide)).1 (by exact ⟨by decide, by decide, by decide, by decide, by decide⟩)
  · exact (C1_put_validation "u1" (UserTokens.mk "" "r" 99 "s" "B") 5 []
      (by decide)).2 (by intro h; exact absurd h.1 (by decide))

/-- A bitwise-or of naturals is zero exactly when both operands are. -/
theorem natOrEqZero (m n : Nat) : m ||| n = 0 ↔ m = 0 ∧ n = 0 := by
  constructor
  · intro h
    constructor
    · by_contra hm
      obtain ⟨i, hi⟩ := Nat.exists_most_significant_bit hm
      have h2 := congrArg (Nat.testBit · i) h
      simp [Nat.testBit_or, hi.1] at h2
    · by_contra hn
      obtain ⟨i, hi⟩ := Nat.exists_most_significant_bit hn
      have h2 := congrArg (Nat.testBit · i) h
      simp [Nat.testBit_or, hi.1] at h2
  · rintro ⟨rfl, rfl⟩
    rfl

/-- The XOR-accumulating loop of `validateApiKey` is zero exactly when the
two equal-length code-unit lists are equal. -/
theorem xorAccum_eq_zero : ∀ xs ys : List Nat, xs.length = ys.length →
    (xorAccum xs ys = 0 ↔ xs = ys) := by
  intro xs
  induction xs with
  | nil =>
    intro ys hlen
    cases ys with
    | nil => simp [xorAccum]
    | cons y ys => simp at hlen
  | cons x xs ih =>
    intro ys hlen
    cases ys with
    | nil => simp at hlen
    | cons y ys =>
      simp only [xorAccum, natOrEqZero, Nat.xor_eq_zero, List.cons.injEq]
      have := ih ys (by simpa using hlen)
      tauto

/-- C2: with admission control enabled, `validateApiKey` accepts exactly
the configured secret — keys of a different length and equal-length keys
differing anywhere are both rejected. -/
theorem C2_validateApiKey_exact (apiKey provided : List Nat) :
    validateApiKey true apiKey provided = true ↔ provided = apiKey := by
  unfold validateApiKey
  by_cases hlen : provided.length = apiKey.length
  · simp only [Bool.not_true, Bool.false_eq_true, if_false, hlen, ne_eq,
      not_true_eq_false, if_neg, ite_false, beq_iff_eq]
    simpa using xorAccum_eq_zero provided apiKey hlen
  · simp only [Bool.not_true, Bool.false_eq_true, if_false, ne_eq, hlen]
    constructor
    · intro h
      simp [hlen] at h
    · intro h
      exact absurd (congrArg List.length h) hlen

/-- Witness for C2: the exact secret is accepted; an equal-length key
differing in one position and a shorter key are rejected. -/
theorem C2_validateApiKey_exact_witness :
    validateApiKey true [97, 98, 99] [97, 98, 99] = true ∧
    validateApiKey true [97, 98, 99] [97, 98, 100] = false ∧
    validateApiKey true [97, 98, 99] [97, 98] = false := by
  refine ⟨(C2_validateApiKey_exact [97, 98, 99] [97, 98, 99]).mpr rfl, ?_, ?_⟩
  · have h := (C2_validateApiKey_exact [97, 98, 99] [97, 98, 100])
    by_contra hc
    simp only [Bool.not_eq_false] at hc
    exact absurd (h.mp hc) (by decide)
  · have h := (C2_validateApiKey_exact [97, 98, 99] [97, 98])
    by_contra hc
    simp only [Bool.not_eq_false] at hc
    exact absurd (h.mp hc) (by decide)

/-- `jsMathCeilDiv x 1000` is the exact ceiling of `x / 1000`. -/
theorem jsMathCeilDiv_bounds (x : Int) :
    1000 * (jsMathCeilDiv x 1000 - 1) < x ∧ x ≤ 1000 * jsMathCeilDiv x 1000 := by
  unfold jsMathCeilDiv
  omega

/-- C4 counterexample: a check arriving exactly at `now = windowResetAt`
(counter at the limit, `limit = 1`) does NOT start a fresh window in the
code: `rateLimitCheck` keeps the old window and rejects with count 2,
while the algorithm worded as in the claim (`rateLimitCheckClaimed`)
resets to a fresh window and accepts with count 1. -/
theorem C4_counterexample :
    (rateLimitCheck 1000 500 1 (some (RateLimitEntry.mk 1 1000))).entry =
      RateLimitEntry.mk 2 1000 ∧
    (rateLimitCheck 1000 500 1 (some (RateLimitEntry.mk 1 1000))).rejected = true ∧
    (rateLimitCheckClaimed 1000 500 1 (some (RateLimitEntry.mk 1 1000))).entry =
      RateLimitEntry.mk 1 1500 ∧
    (rateLimitCheckClaimed 1000 500 1 (some (RateLimitEntry.mk 1 1000))).rejected = false := by
  refine ⟨rfl, rfl, rfl, rfl⟩

/-- C4 (amended): each rate-limit check replaces the counter with a fresh
window `{count: 0, windowResetAt: now + windowMs}` exactly when the
counter is absent or `windowResetAt < now` (strict — a check arriving at
exactly `now = windowResetAt` still falls in the old window), then
increments; it rejects iff the count exceeds the limit, and on rejection
reports `retryAfterSeconds = ceil((windowResetAt − now) / 1000)`. -/
theorem C4_rate_limit_window (now windowMs : Int) (limit : Nat)
    (stored : Option RateLimitEntry) :
    ((stored = none ∨ ∃ e, stored = some e ∧ e.resetTime < now) →
      (rateLimitCheck now windowMs limit stored).entry =
        RateLimitEntry.mk 1 (now + windowMs)) ∧
    (∀ e, stored = some e → now ≤ e.resetTime →
      (rateLimitCheck now windowMs limit stored).entry =
        RateLimitEntry.mk (e.count + 1) e.resetTime) ∧
    ((rateLimitCheck now windowMs limit stored).rejected = true ↔
      limit < (rateLimitCheck now windowMs limit stored).entry.count) ∧
    ((rateLimitCheck now windowMs limit stored).rejected = false ↔
      (rateLimitCheck now windowMs limit stored).retryAfter = none) ∧
    (∀ ra, (rateLimitCheck now windowMs limit stored).retryAfter = some ra →
      1000 * (ra - 1) < (rateLimitCheck now windowMs limit stored).entry.resetTime - now ∧
      (rateLimitCheck now windowMs limit stored).entry.resetTime - now ≤ 1000 * ra) := by
  refine ⟨?_, ?_, ?_, ?_, ?_⟩
  · rintro (rfl | ⟨e, rfl, hlt⟩)
    · unfold rateLimitCheck
      by_cases h : limit < 0 + 1 <;> simp [h]
    · unfold rateLimitCheck
      by_cases h : limit < 0 + 1 <;> simp [hlt, h]
  · rintro e rfl hle
    have hnl : ¬ e.resetTime < now := not_lt.mpr hle
    unfold rateLimitCheck
    by_cases h : limit < e.count + 1 <;> simp [hnl, h]
  · unfold rateLimitCheck
    rcases stored with _ | e
    · by_cases h : limit < 0 + 1 <;> simp [h]
    · by_cases hlt : e.resetTime < now
      · by_cases h : limit < 0 + 1 <;> simp [hlt, h]
      · by_cases h : limit < e.count + 1 <;> simp [hlt, h]
  · unfold rateLimitCheck
    rcases stored with _ | e
    · by_cases h : limit < 0 + 1 <;> simp [h]
    · by_cases hlt : e.resetTime < now
      · by_cases h : limit < 0 + 1 <;> simp [hlt, h]
      · by_cases h : limit < e.count + 1 <;> simp [hlt, h]
  · intro ra hra
    unfold rateLimitCheck at hra ⊢
    rcases stored with _ | e
    · by_cases h : limit < 0 + 1 <;> simp [h] at hra ⊢
      · subst hra
        have hb := jsMathCeilDiv_bounds windowMs
        omega
    · by_cases hlt : e.resetTime < now
      · by_cases h : limit < 0 + 1 <;> simp [hlt, h] at hra ⊢
        · subst hra
          have hb := jsMathCeilDiv_bounds windowMs
          omega
      · by_cases h : limit < e.count + 1 <;> simp [hlt, h] at hra ⊢
        · subst hra
          have hb := jsMathCeilDiv_bounds (e.resetTime - now)
          omega

/-- Witness for C4 (amended): at `now` one past the stored window end the
counter is reset to a fresh window; and a rejected check reports a
retry-after of one second when the window ends 500ms later. -/
theorem C4_rate_limit_window_witness :
    (rateLimitCheck 1001 500 1 (some (RateLimitEntry.mk 7 1000))).entry =
      RateLimitEntry.mk 1 1501 ∧
    (rateLimitCheck 1000 500 1 (some (RateLimitEntry.mk 1 1500))).entry =
      RateLimitEntry.mk 2 1500 ∧
    (1000 * ((1 : Int) - 1) < (rateLimitCheck 1000 500 1 (some (RateLimitEntry.mk 1 1500))).entry.resetTime - 1000 ∧
     (rateLimitCheck 1000 500 1 (some (RateLimitEntry.mk 1 1500))).entry.resetTime - 1000 ≤ 1000 * 1) := by
  refine ⟨?_, ?_, ?_⟩
  · exact (C4_rate_limit_window 1001 500 1 (some (RateLimitEntry.mk 7 1000))).1
      (Or.inr ⟨RateLimitEntry.mk 7 1000, rfl, by decide⟩)
  · exact (C4_rate_limit_window 1000 500 1 (some (RateLimitEntry.mk 1 1500))).2.1
      (RateLimitEntry.mk 1 1500) rfl (by decide)
  · exact (C4_rate_limit_window 1000 500 1 (some (RateLimitEntry.mk 1 1500))).2.2.2.2
      1 (by decide)

/-- C10: the payload-size stage rejects exactly the requests whose
Content-Length header is present and parses (JS `parseInt`) to a number
strictly greater than the configured maximum; an absent or unparseable
(NaN) header always passes, regardless of actual body size. -/
theorem C10_size_limit_stage (maxSize : Int) (hmax : 0 ≤ maxSize)
    (hdr : Option String) :
    sizeLimitRejects maxSize hdr = true ↔
      ∃ h n, hdr = some h ∧ jsParseInt h = some n ∧ maxSize < n := by
  cases hdr with
  | none =>
    simp only [sizeLimitRejects, contentLengthOrZero]
    have h0 : jsParseInt "0" = some 0 := by decide
    rw [h0]
    simp only [decide_eq_true_eq]
    constructor
    · intro h
      omega
    · rintro ⟨h, n, hcontra, -⟩
      exact absurd hcontra (by simp)
  | some h =>
    by_cases hh : h = ""
    · subst hh
      simp only [sizeLimitRejects]
      have h0 : jsParseInt "0" = some 0 := by decide
      have he : jsParseInt "" = none := by decide
      rw [show contentLengthOrZero (some "") = "0" from rfl, h0]
      simp only [decide_eq_true_eq]
      constructor
      · intro hc
        omega
      · rintro ⟨h1, n, hsome, hparse, -⟩
        rw [show h1 = "" from by injection hsome with hx; exact hx.symm] at hparse
        rw [he] at hparse
        exact absurd hparse (by simp)
    · simp only [sizeLimitRejects, contentLengthOrZero, if_neg hh]
      cases hp : jsParseInt h with
      | none =>
        simp only [Bool.false_eq_true, false_iff]
        rintro ⟨h1, n, hsome, hparse, -⟩
        injection hsome with hx
        rw [← hx] at hparse
        rw [hp] at hparse
        exact absurd hparse (by simp)
      | some n =>
        simp only [decide_eq_true_eq]
        constructor
        · intro hlt
          exact ⟨h, n, rfl, hp, hlt⟩
        · rintro ⟨h1, n1, hsome, hparse, hlt⟩
          injection hsome with hx
          rw [← hx] at hparse
          rw [hp] at hparse
          injection hparse with hn
          omega

/-- Witness for C10: with the 10MB maximum, a missing header and a
non-numeric header pass, while a numeric header above the maximum is
rejected. -/
theorem C10_size_limit_stage_witness :
    sizeLimitRejects 10485760 none = false ∧
    sizeLimitRejects 10485760 (some "abc") = false ∧
    sizeLimitRejects 10485760 (some "10485761") = true := by
  refine ⟨?_, ?_, ?_⟩
  · by_contra hc
    simp only [Bool.not_eq_false] at hc
    obtain ⟨h, n, habs, -⟩ := (C10_size_limit_stage 10485760 (by decide) none).mp hc
    exact absurd habs (by simp)
  · by_contra hc
    simp only [Bool.not_eq_false] at hc
    obtain ⟨h, n, hsome, hparse, -⟩ :=
      (C10_size_limit_stage 10485760 (by decide) (some "abc")).mp hc
    injection hsome with hx
    rw [← hx] at hparse
    rw [show jsParseInt "abc" = none from by decide] at hparse
    exact absurd hparse (by simp)
  · exact (C10_size_limit_stage 10485760 (by decide) (some "10485761")).mpr
      ⟨"10485761", 10485761, rfl, by decide, by decide⟩

/-- C5: when the injection body passes schema validation but carries
`expiresAt ≤ now`, `handleInjectTokens` rejects it with the distinct
already-expired 400 message and leaves the token store unchanged, so a
tenant whose stored credential is still outside the 5-minute expiry buffer
keeps it and the status operation still reports it valid. -/
theorem C5_inject_expired_atomic (minBuf warnTh now : Int) (req : Request)
    (s : TokenStore) (e : TokenEntry)
    (hschema : injectSchemaErrors req = [])
    (hexp : req.bodyExpiresAt ≤ now)
    (hstore : storeGet s req.bodyUserId = some e)
    (hvalid : now + tokenExpiryBufferMs < e.tokens.expiresAt) :
    handleInjectTokens minBuf warnTh req now s =
      (InjectResult.invalidToken
        "Token has already expired. Please refresh the token before injecting.", s) ∧
    (handleTokenStatus req.bodyUserId now s).1.isValid = true := by
  have huid : req.bodyUserId ≠ "" := by
    intro hq
    rw [injectSchemaErrors, hq] at hschema
    simp at hschema
  constructor
  · rw [handleInjectTokens, hschema]
    have hle : req.bodyExpiresAt - now ≤ 0 := by omega
    simp [hle]
  · rw [handleTokenStatus, getUserTokens, if_neg huid, hstore]
    have hnx : isTokenExpired now e.tokens = false := by
      simp only [isTokenExpired, decide_eq_false_iff_not, not_le]
      omega
    simp [hnx, TokenStatusResp.isValid]

/-- Witness for C5: tenant `u1` holds a credential expiring an hour from
`now = 1000000`; a second injection with `expiresAt = 999000 ≤ now` (yet a
positive integer, so schema-valid) is rejected with the already-expired
message, the store is unchanged, and status still reports valid. -/
theorem C5_inject_expired_atomic_witness :
    handleInjectTokens 300000 600000
      (Request.mk "POST" "/api/tokens" none none none none "9.9.9.9"
        "u1" "a2" "r2" 999000 "s" "Bearer") 1000000
      [("u1", TokenEntry.mk (UserTokens.mk "a1" "r1" 4600000 "s" "Bearer") 0 0)] =
      (InjectResult.invalidToken
        "Token has already expired. Please refresh the token before injecting.",
       [("u1", TokenEntry.mk (UserTokens.mk "a1" "r1" 4600000 "s" "Bearer") 0 0)]) ∧
    (handleTokenStatus "u1" 1000000
      [("u1", TokenEntry.mk (UserTokens.mk "a1" "r1" 4600000 "s" "Bearer") 0 0)]).1.isValid = true := by
  exact C5_inject_expired_atomic 300000 600000 1000000
    (Request.mk "POST" "/api/tokens" none none none none "9.9.9.9"
      "u1" "a2" "r2" 999000 "s" "Bearer")
    [("u1", TokenEntry.mk (UserTokens.mk "a1" "r1" 4600000 "s" "Bearer") 0 0)]
    (TokenEntry.mk (UserTokens.mk "a1" "r1" 4600000 "s" "Bearer") 0 0)
    (by decide) (by decide) (by decide) (by decide)

/-- C6: (1) a request reaching the token-endpoint pipeline with an API key
that fails validation stops at `apiKeyAuth` — the server state (including
every rate-limit counter) is returned unchanged and the wrapped handler
never runs; (2) a request whose declared Content-Length exceeds the
maximum is, even with a valid key, rejected by the size stage before the
management/token handlers run, again with the state unchanged. -/
theorem C6_pipeline_short_circuit (cfg : ConvexCfg) (req : Request)
    (now : Int) (st : ServerState) :
    (cfg.enabled = true →
      validateApiKey true cfg.apiKey (extractAuthKey req) = false →
      strStartsWith (urlPath req.url) "/api/tokens" = true →
      handleTokenEndpoints cfg req now st = some (Outcome.tokenUnauthorized, st)) ∧
    (∀ n : Int,
      corsDecision cfg req = CorsResult.proceed →
      validateApiKey cfg.enabled cfg.apiKey (extractAuthKey req) = true →
      jsParseInt (contentLengthOrZero req.contentLength) = some n →
      maxRequestSize < n →
      processRequest cfg req now st = (Outcome.payloadTooLarge, st)) := by
  constructor
  · intro hen hbad hpath
    rw [handleTokenEndpoints]
    simp only [hpath, Bool.not_true, Bool.false_eq_true, if_false, hen, hbad,
      Bool.not_false, Bool.and_self, if_true]
  · intro n hcors hkey hparse hlt
    have hrej : sizeLimitRejects maxRequestSize req.contentLength = true := by
      rw [sizeLimitRejects, hparse]
      simp [hlt]
    unfold processRequest
    rw [hcors, if_pos hrej]

/-- Witness for C6: a wrong single-character key against secret `"a"` is
stopped at the key stage with untouched counters; an 11-byte declared
payload over a tiny request with a correct key is stopped at the size
stage. -/
theorem C6_pipeline_short_circuit_witness :
    handleTokenEndpoints
      (ConvexCfg.mk true [97] ["https://sf.example"] 100 10 900000 300000 600000)
      (Request.mk "POST" "/api/tokens" (some "https://sf.example") (some [98])
        none none "9.9.9.9" "u1" "a" "r" 4600000 "s" "Bearer") 1000
      (ServerState.mk [] []) =
      some (Outcome.tokenUnauthorized, ServerState.mk [] []) ∧
    processRequest
      (ConvexCfg.mk true [97] ["https://sf.example"] 100 10 900000 300000 600000)
      (Request.mk "POST" "/api/tokens" (some "https://sf.example") (some [97])
        none (some "10485761") "9.9.9.9" "u1" "a" "r" 4600000 "s" "Bearer") 1000
      (ServerState.mk [] []) =
      (Outcome.payloadTooLarge, ServerState.mk [] []) := by
  constructor
  · exact (C6_pipeline_short_circuit
      (ConvexCfg.mk true [97] ["https://sf.example"] 100 10 900000 300000 600000)
      (Request.mk "POST" "/api/tokens" (some "https://sf.example") (some [98])
        none none "9.9.9.9" "u1" "a" "r" 4600000 "s" "Bearer") 1000
      (ServerState.mk [] [])).1 rfl (by decide) (by decide)
  · exact (C6_pipeline_short_circuit
      (ConvexCfg.mk true [97] ["https://sf.example"] 100 10 900000 300000 600000)
      (Request.mk "POST" "/api/tokens" (some "https://sf.example") (some [97])
        none (some "10485761") "9.9.9.9" "u1" "a" "r" 4600000 "s" "Bearer") 1000
      (ServerState.mk [] [])).2 10485761 (by decide) (by decide) (by decide) (by decide)

/-- C9: with admission control enabled and no wildcard origin configured,
a non-preflight request carrying no Origin header is terminated by the
origin stage with a 403 — the server state is unchanged, so the API-key
stage, the rate limiter and every handler are never reached. -/
theorem C9_missing_origin_forbidden (cfg : ConvexCfg) (req : Request)
    (now : Int) (st : ServerState)
    (hen : cfg.enabled = true)
    (hwild : cfg.allowedOrigins.contains "*" = false)
    (horig : req.origin = none)
    (hmeth : req.method ≠ "OPTIONS") :
    processRequest cfg req now st = (Outcome.originForbidden, st) := by
  have hw2 : "*" ∉ cfg.allowedOrigins := by simpa using hwild
  have hcors : corsDecision cfg req = CorsResult.forbidden := by
    rw [corsDecision]
    simp [hen, horig, hwild, hmeth, hw2]
  unfold processRequest
  rw [hcors]

/-- Witness for C9: a GET request without an Origin header against an
enabled configuration whose allow-list has no wildcard is answered with
the origin-stage 403 and leaves the state untouched. -/
theorem C9_missing_origin_forbidden_witness :
    processRequest
      (ConvexCfg.mk true [97] ["https://sf.example"] 100 10 900000 300000 600000)
      (Request.mk "GET" "/api/tokens/u1/status" none (some [97]) none none
        "9.9.9.9" "" "" "" 0 "" "") 1000
      (ServerState.mk [] []) =
      (Outcome.originForbidden, ServerState.mk [] []) := by
  exact C9_missing_origin_forbidden
    (ConvexCfg.mk true [97] ["https://sf.example"] 100 10 900000 300000 600000)
    (Request.mk "GET" "/api/tokens/u1/status" none (some [97]) none none
      "9.9.9.9" "" "" "" 0 "" "") 1000
    (ServerState.mk [] []) rfl (by decide) rfl (by decide)

/-- A `getUserTokens` lookup for a key different from the head entry
passes over the head untouched. -/
theorem getUserTokens_cons_ne (uid k : String) (e : TokenEntry) (t : TokenStore)
    (now : Int) (h : k ≠ uid) :
    getUserTokens uid now ((k, e) :: t) =
      ((getUserTokens uid now t).1, (k, e) :: (getUserTokens uid now t).2) := by
  by_cases huid : uid = ""
  · simp [getUserTokens, huid]
  · simp only [getUserTokens, if_neg huid, storeGet, if_neg h]
    cases hg : storeGet t uid with
    | none => simp
    | some entry => simp [storeSet, if_neg h]

/-- The `handleActiveUsers` loop leaves a head entry alone when its key is
not among the user ids being visited. -/
theorem activeUsersLoop_cons_notin (now : Int) (uids : List String) (k : String)
    (e : TokenEntry) :
    ∀ t : TokenStore, k ∉ uids →
      activeUsersLoop now uids ((k, e) :: t) =
        ((activeUsersLoop now uids t).1, (k, e) :: (activeUsersLoop now uids t).2) := by
  induction uids with
  | nil =>
    intro t h
    simp [activeUsersLoop]
  | cons uid rest ih =>
    intro t h
    have hk : k ≠ uid := fun hq => h (hq ▸ List.mem_cons_self _ _)
    have hnot : k ∉ rest := fun hq => h (List.mem_cons_of_mem _ hq)
    rcases hg : getUserTokens uid now t with ⟨r1, s1⟩
    simp only [activeUsersLoop, getUserTokens_cons_ne uid k e t now hk, hg]
    cases r1 with
    | none => simpa using ih s1 hnot
    | some tokens => simp [ih s1 hnot]

/-- Running the `handleActiveUsers` loop over a well-formed store (distinct,
non-empty keys) rewrites every entry's `lastAccessed` to `now` and changes
nothing else: no entry is added or removed and all other fields survive. -/
theorem activeUsersLoop_map (now : Int) :
    ∀ s : TokenStore, (s.map Prod.fst).Nodup → (∀ p ∈ s, p.1 ≠ "") →
      (activeUsersLoop now (s.map Prod.fst) s).2 =
        s.map (fun p => (p.1, { p.2 with lastAccessed := now })) := by
  intro s
  induction s with
  | nil =>
    intro _ _
    simp [activeUsersLoop]
  | cons hd tl ih =>
    rcases hd with ⟨k, e⟩
    intro hnd hne
    have hk : k ≠ "" := hne (k, e) (List.mem_cons_self _ _)
    have hnd2 : (tl.map Prod.fst).Nodup := (List.nodup_cons.mp (by simpa using hnd)).2
    have hknot : k ∉ tl.map Prod.fst := (List.nodup_cons.mp (by simpa using hnd)).1
    have hne2 : ∀ p ∈ tl, p.1 ≠ "" := fun p hp => hne p (List.mem_cons_of_mem _ hp)
    have hget : getUserTokens k now ((k, e) :: tl) =
        (some e.tokens, (k, { e with lastAccessed := now }) :: tl) := by
      simp [getUserTokens, hk, storeGet, storeSet]
    show (activeUsersLoop now (k :: tl.map Prod.fst) ((k, e) :: tl)).2 = _
    simp only [activeUsersLoop, hget]
    rw [activeUsersLoop_cons_notin now (tl.map Prod.fst) k _ tl hknot]
    simp [ih hnd2 hne2]

/-- C3 counterexample: the active-tenants listing is not read-only — on a
store with one entry whose `lastAccessed` is 0, running it at `now = 100`
changes the store (the entry's `lastAccessed` becomes 100). -/
theorem C3_counterexample :
    (handleActiveUsers 100
      [("u", TokenEntry.mk (UserTokens.mk "a" "r" 999 "s" "B") 0 0)]).2 ≠
      [("u", TokenEntry.mk (UserTokens.mk "a" "r" 999 "s" "B") 0 0)] := by
  decide

/-- C3 (amended): the health and metrics reads leave the credential store
exactly as it was; the active-tenants listing adds and removes no entry
and preserves every credential and `lastUpdated` field, but refreshes the
`lastAccessed` timestamp of every listed entry to `now` (it reads through
`getUserTokens`, which is not a pure read). -/
theorem C3_admin_reads_amended (now : Int) (s : TokenStore)
    (hnd : (s.map Prod.fst).Nodup) (hne : ∀ p ∈ s, p.1 ≠ "") :
    (handleHealthCheck now s).2 = s ∧
    (handleMetrics now s).2 = s ∧
    (handleActiveUsers now s).2 =
      s.map (fun p => (p.1, { p.2 with lastAccessed := now })) := by
  refine ⟨rfl, rfl, ?_⟩
  exact activeUsersLoop_map now s hnd hne

/-- Witness for C3 (amended): on a concrete one-entry store, health leaves
the store unchanged and the active listing rewrites only `lastAccessed`. -/
theorem C3_admin_reads_amended_witness :
    (handleHealthCheck 100
      [("u", TokenEntry.mk (UserTokens.mk "a" "r" 999 "s" "B") 0 0)]).2 =
      [("u", TokenEntry.mk (UserTokens.mk "a" "r" 999 "s" "B") 0 0)] ∧
    (handleActiveUsers 100
      [("u", TokenEntry.mk (UserTokens.mk "a" "r" 999 "s" "B") 0 0)]).1.2 =
      [ActiveUserInfo.mk "u" false 899 "s"] ∧
    (handleActiveUsers 100
      [("u", TokenEntry.mk (UserTokens.mk "a" "r" 999 "s" "B") 0 0)]).2 =
      [("u", TokenEntry.mk (UserTokens.mk "a" "r" 999 "s" "B") 0 100)] := by
  have h := C3_admin_reads_amended 100
    [("u", TokenEntry.mk (UserTokens.mk "a" "r" 999 "s" "B") 0 0)]
    (by decide) (by decide)
  refine ⟨h.1, by decide, ?_⟩
  rw [h.2.2]
  rfl
